import Mathlib

/-!
Verification development for the `http_based_file_storage` repository: a
content-addressable blob store over HTTP.  The Go source is shallowly
embedded: byte sequences are `List Nat` (each element `< 256`), machine
words are `Nat` truncated with an explicit `% 2 ^ 32` (resp. `% 2 ^ 64`),
the filesystem is an association list from paths to contents, and fallible
Go functions return an explicit outcome type distinguishing a returned
`error` value from a runtime panic.

The hash algorithms used by the server (`crypto/md5`, `crypto/sha1`,
`crypto/sha256`, `crypto/sha512` of the Go standard library) are embedded
as executable Lean functions of their standard definitions (FIPS 180-4,
RFC 1321), so every digest the embedded pipeline reports is a concrete,
computable string.
-/

namespace HBFS

/-- Byte sequences: each element is a byte value `< 256`. -/
abbrev Bytes := List Nat

/-! ## 32-bit word arithmetic on `Nat` -/

/-- Truncation to a 32-bit word. -/
def w32 (x : Nat) : Nat := x % 4294967296

/-- Right rotation of a 32-bit word by `n` bits. -/
def rotr32 (n x : Nat) : Nat := w32 ((x >>> n) ||| (x <<< (32 - n)))

/-- Left rotation of a 32-bit word by `n` bits. -/
def rotl32 (n x : Nat) : Nat := w32 ((x <<< n) ||| (x >>> (32 - n)))

/-- Bitwise complement of a 32-bit word. -/
def not32 (x : Nat) : Nat := x ^^^ 4294967295

/-- Big-endian 4-byte serialization of a 32-bit word. -/
def u32be (x : Nat) : Bytes :=
  [(x >>> 24) &&& 255, (x >>> 16) &&& 255, (x >>> 8) &&& 255, x &&& 255]

/-- Little-endian 4-byte serialization of a 32-bit word. -/
def u32le (x : Nat) : Bytes :=
  [x &&& 255, (x >>> 8) &&& 255, (x >>> 16) &&& 255, (x >>> 24) &&& 255]

/-- Big-endian 8-byte serialization of a 64-bit value. -/
def u64be (x : Nat) : Bytes :=
  [(x >>> 56) &&& 255, (x >>> 48) &&& 255, (x >>> 40) &&& 255, (x >>> 32) &&& 255,
   (x >>> 24) &&& 255, (x >>> 16) &&& 255, (x >>> 8) &&& 255, x &&& 255]

/-- Little-endian 8-byte serialization of a 64-bit value. -/
def u64le (x : Nat) : Bytes :=
  [x &&& 255, (x >>> 8) &&& 255, (x >>> 16) &&& 255, (x >>> 24) &&& 255,
   (x >>> 32) &&& 255, (x >>> 40) &&& 255, (x >>> 48) &&& 255, (x >>> 56) &&& 255]

/-- Group a byte list into big-endian 32-bit words (four bytes per word). -/
def bytesToWords32 : Bytes → List Nat
  | b0 :: b1 :: b2 :: b3 :: rest =>
      ((b0 <<< 24) ||| (b1 <<< 16) ||| (b2 <<< 8) ||| b3) :: bytesToWords32 rest
  | _ => []

/-- Group a byte list into little-endian 32-bit words (four bytes per word). -/
def bytesToWords32LE : Bytes → List Nat
  | b0 :: b1 :: b2 :: b3 :: rest =>
      (b0 ||| (b1 <<< 8) ||| (b2 <<< 16) ||| (b3 <<< 24)) :: bytesToWords32LE rest
  | _ => []

/-! ## SHA-256 (FIPS 180-4), the algorithm behind Go's `crypto/sha256` -/

/-- Eight-word hash state shared by the 32-bit SHA family and MD5
(MD5 uses only the first four fields). -/
structure H8 where
  a : Nat
  b : Nat
  c : Nat
  d : Nat
  e : Nat
  f : Nat
  g : Nat
  h : Nat
deriving DecidableEq, Repr

/-- SHA-256 round constants `K` (decimal renderings of the FIPS 180-4
words, the fractional cube roots of the first 64 primes). -/
def sha256K : List Nat := [
  1116352408, 1899447441, 3049323471, 3921009573, 961987163, 1508970993,
  2453635748, 2870763221, 3624381080, 310598401, 607225278, 1426881987,
  1925078388, 2162078206, 2614888103, 3248222580, 3835390401, 4022224774,
  264347078, 604807628, 770255983, 1249150122, 1555081692, 1996064986,
  2554220882, 2821834349, 2952996808, 3210313671, 3336571891, 3584528711,
  113926993, 338241895, 666307205, 773529912, 1294757372, 1396182291,
  1695183700, 1986661051, 2177026350, 2456956037, 2730485921, 2820302411,
  3259730800, 3345764771, 3516065817, 3600352804, 4094571909, 275423344,
  430227734, 506948616, 659060556, 883997877, 958139571, 1322822218,
  1537002063, 1747873779, 1955562222, 2024104815, 2227730452, 2361852424,
  2428436474, 2756734187, 3204031479, 3329325298]

/-- SHA-256 initial hash value (fractional square roots of the first
eight primes, decimal). -/
def sha256H0 : H8 :=
  ⟨1779033703, 3144134277, 1013904242, 2773480762,
   1359893119, 2600822924, 528734635, 1541459225⟩

/-- Choice function `Ch(x,y,z)`. -/
def ch32 (x y z : Nat) : Nat := (x &&& y) ^^^ (not32 x &&& z)

/-- Majority function `Maj(x,y,z)`. -/
def maj32 (x y z : Nat) : Nat := (x &&& y) ^^^ (x &&& z) ^^^ (y &&& z)

/-- Big sigma-0. -/
def bsig0 (x : Nat) : Nat := rotr32 2 x ^^^ rotr32 13 x ^^^ rotr32 22 x

/-- Big sigma-1. -/
def bsig1 (x : Nat) : Nat := rotr32 6 x ^^^ rotr32 11 x ^^^ rotr32 25 x

/-- Small sigma-0. -/
def ssig0 (x : Nat) : Nat := rotr32 7 x ^^^ rotr32 18 x ^^^ (x >>> 3)

/-- Small sigma-1. -/
def ssig1 (x : Nat) : Nat := rotr32 17 x ^^^ rotr32 19 x ^^^ (x >>> 10)

/-- One step of message-schedule extension: append the next word `W[n]`
computed from `W[n-2]`, `W[n-7]`, `W[n-15]`, `W[n-16]`. -/
def sha256ExtendOnce (ws : List Nat) : List Nat :=
  let n := ws.length
  ws ++ [w32 (ssig1 (ws.getD (n - 2) 0) + ws.getD (n - 7) 0 +
              ssig0 (ws.getD (n - 15) 0) + ws.getD (n - 16) 0)]

/-- Extend a 16-word block to the 64-word SHA-256 message schedule. -/
def sha256Schedule (ws : List Nat) : List Nat := sha256ExtendOnce^[48] ws

/-- One SHA-256 compression round; `kw` is the precombined `K[t] + W[t]`. -/
def sha256Round (st : H8) (kw : Nat) : H8 :=
  let t1 := w32 (st.h + bsig1 st.e + ch32 st.e st.f st.g + kw)
  let t2 := w32 (bsig0 st.a + maj32 st.a st.b st.c)
  ⟨w32 (t1 + t2), st.a, st.b, st.c, w32 (st.d + t1), st.e, st.f, st.g⟩

/-- Compress one 16-word block into the running state. -/
def sha256Compress (st : H8) (block : List Nat) : H8 :=
  let kws := List.zipWith (fun k w => w32 (k + w)) sha256K (sha256Schedule block)
  let r := kws.foldl sha256Round st
  ⟨w32 (st.a + r.a), w32 (st.b + r.b), w32 (st.c + r.c), w32 (st.d + r.d),
   w32 (st.e + r.e), w32 (st.f + r.f), w32 (st.g + r.g), w32 (st.h + r.h)⟩

/-- Fold the compression function over successive 16-word blocks
(fuel-based recursion so the definition reduces in the kernel). -/
def sha256BlocksAux : Nat → H8 → List Nat → H8
  | 0, st, _ => st
  | _, st, [] => st
  | fuel + 1, st, ws => sha256BlocksAux fuel (sha256Compress st (ws.take 16)) (ws.drop 16)

/-- Merkle–Damgard padding with a 64-bit big-endian bit length
(SHA-256 and SHA-1 share it). -/
def shaPad (msg : Bytes) : Bytes :=
  let len := msg.length
  msg ++ 0x80 :: List.replicate ((120 - (len + 1) % 64) % 64) 0 ++ u64be (8 * len)

/-- Serialize the eight-word state big-endian. -/
def h8ToBytesBE (st : H8) : Bytes :=
  u32be st.a ++ u32be st.b ++ u32be st.c ++ u32be st.d ++
  u32be st.e ++ u32be st.f ++ u32be st.g ++ u32be st.h

/-- SHA-256 digest of a byte sequence, as its 32 digest bytes.  Embeds the
`sha256.New()` / `hash.Sum(nil)` combination the server uses. -/
def sha256Sum (msg : Bytes) : Bytes :=
  let ws := bytesToWords32 (shaPad msg)
  h8ToBytesBE (sha256BlocksAux (ws.length + 1) sha256H0 ws)

/-! ## MD5 (RFC 1321), the algorithm behind Go's `crypto/md5` -/

/-- Four-word MD5 state. -/
structure H4 where
  a : Nat
  b : Nat
  c : Nat
  d : Nat
deriving DecidableEq, Repr

/-- MD5 round constants `K[i] = floor(2^32 * |sin(i+1)|)`, decimal. -/
def md5K : List Nat := [
  3614090360, 3905402710, 606105819, 3250441966, 4118548399, 1200080426,
  2821735955, 4249261313, 1770035416, 2336552879, 4294925233, 2304563134,
  1804603682, 4254626195, 2792965006, 1236535329, 4129170786, 3225465664,
  643717713, 3921069994, 3593408605, 38016083, 3634488961, 3889429448,
  568446438, 3275163606, 4107603335, 1163531501, 2850285829, 4243563512,
  1735328473, 2368359562, 4294588738, 2272392833, 1839030562, 4259657740,
  2763975236, 1272893353, 4139469664, 3200236656, 681279174, 3936430074,
  3572445317, 76029189, 3654602809, 3873151461, 530742520, 3299628645,
  4096336452, 1126891415, 2878612391, 4237533241, 1700485571, 2399980690,
  4293915773, 2240044497, 1873313359, 4264355552, 2734768916, 1309151649,
  4149444226, 3174756917, 718787259, 3951481745]

/-- MD5 per-round left-rotation amounts. -/
def md5S : List Nat := [
  7, 12, 17, 22, 7, 12, 17, 22, 7, 12, 17, 22, 7, 12, 17, 22,
  5, 9, 14, 20, 5, 9, 14, 20, 5, 9, 14, 20, 5, 9, 14, 20,
  4, 11, 16, 23, 4, 11, 16, 23, 4, 11, 16, 23, 4, 11, 16, 23,
  6, 10, 15, 21, 6, 10, 15, 21, 6, 10, 15, 21, 6, 10, 15, 21]

/-- The MD5 nonlinear function of round `i`. -/
def md5F (i b c d : Nat) : Nat :=
  if i < 16 then (b &&& c) ||| (not32 b &&& d)
  else if i < 32 then (d &&& b) ||| (not32 d &&& c)
  else if i < 48 then b ^^^ c ^^^ d
  else c ^^^ (b ||| not32 d)

/-- The MD5 message-word index of round `i`. -/
def md5G (i : Nat) : Nat :=
  if i < 16 then i
  else if i < 32 then (5 * i + 1) % 16
  else if i < 48 then (3 * i + 5) % 16
  else (7 * i) % 16

/-- One MD5 round over message block `m`. -/
def md5Round (m : List Nat) (st : H4) (i : Nat) : H4 :=
  let x := w32 (md5F i st.b st.c st.d + st.a + md5K.getD i 0 + m.getD (md5G i) 0)
  ⟨st.d, w32 (st.b + rotl32 (md5S.getD i 0) x), st.b, st.c⟩

/-- Compress one 16-word block into the running MD5 state. -/
def md5Compress (st : H4) (block : List Nat) : H4 :=
  let r := (List.range 64).foldl (md5Round block) st
  ⟨w32 (st.a + r.a), w32 (st.b + r.b), w32 (st.c + r.c), w32 (st.d + r.d)⟩

/-- Fold the MD5 compression over successive 16-word blocks. -/
def md5BlocksAux : Nat → H4 → List Nat → H4
  | 0, st, _ => st
  | _, st, [] => st
  | fuel + 1, st, ws => md5BlocksAux fuel (md5Compress st (ws.take 16)) (ws.drop 16)

/-- The MD5 padding differs from SHA only in appending the bit length
little-endian. -/
def md5Pad (msg : Bytes) : Bytes :=
  let len := msg.length
  msg ++ 0x80 :: List.replicate ((120 - (len + 1) % 64) % 64) 0 ++ u64le (8 * len)

/-- MD5 digest of a byte sequence, as its 16 digest bytes. -/
def md5Sum (msg : Bytes) : Bytes :=
  let ws := bytesToWords32LE (md5Pad msg)
  let st := md5BlocksAux (ws.length + 1) ⟨1732584193, 4023233417, 2562383102, 271733878⟩ ws
  u32le st.a ++ u32le st.b ++ u32le st.c ++ u32le st.d

/-! ## SHA-1 (FIPS 180-4), the algorithm behind Go's `crypto/sha1` -/

/-- Five-word SHA-1 state. -/
structure H5 where
  a : Nat
  b : Nat
  c : Nat
  d : Nat
  e : Nat
deriving DecidableEq, Repr

/-- One step of SHA-1 message-schedule extension. -/
def sha1ExtendOnce (ws : List Nat) : List Nat :=
  let n := ws.length
  ws ++ [rotl32 1 (ws.getD (n - 3) 0 ^^^ ws.getD (n - 8) 0 ^^^
                   ws.getD (n - 14) 0 ^^^ ws.getD (n - 16) 0)]

/-- Extend a 16-word block to the 80-word SHA-1 message schedule. -/
def sha1Schedule (ws : List Nat) : List Nat := sha1ExtendOnce^[64] ws

/-- The SHA-1 round function and round constant for round `i`. -/
def sha1FK (i b c d : Nat) : Nat × Nat :=
  if i < 20 then ((b &&& c) ||| (not32 b &&& d), 1518500249)
  else if i < 40 then (b ^^^ c ^^^ d, 1859775393)
  else if i < 60 then ((b &&& c) ||| (b &&& d) ||| (c &&& d), 2400959708)
  else (b ^^^ c ^^^ d, 3395469782)

/-- One SHA-1 round over schedule `m`. -/
def sha1Round (m : List Nat) (st : H5) (i : Nat) : H5 :=
  let fk := sha1FK i st.b st.c st.d
  let t := w32 (rotl32 5 st.a + fk.1 + st.e + fk.2 + m.getD i 0)
  ⟨t, st.a, rotl32 30 st.b, st.c, st.d⟩

/-- Compress one 16-word block into the running SHA-1 state. -/
def sha1Compress (st : H5) (block : List Nat) : H5 :=
  let ws := sha1Schedule block
  let r := (List.range 80).foldl (sha1Round ws) st
  ⟨w32 (st.a + r.a), w32 (st.b + r.b), w32 (st.c + r.c), w32 (st.d + r.d), w32 (st.e + r.e)⟩

/-- Fold the SHA-1 compression over successive 16-word blocks. -/
def sha1BlocksAux : Nat → H5 → List Nat → H5
  | 0, st, _ => st
  | _, st, [] => st
  | fuel + 1, st, ws => sha1BlocksAux fuel (sha1Compress st (ws.take 16)) (ws.drop 16)

/-- SHA-1 digest of a byte sequence, as its 20 digest bytes. -/
def sha1Sum (msg : Bytes) : Bytes :=
  let ws := bytesToWords32 (shaPad msg)
  let st := sha1BlocksAux (ws.length + 1)
    ⟨1732584193, 4023233417, 2562383102, 271733878, 3285377520⟩ ws
  u32be st.a ++ u32be st.b ++ u32be st.c ++ u32be st.d ++ u32be st.e

/-! ## SHA-512 (FIPS 180-4), the algorithm behind Go's `crypto/sha512` -/

/-- Truncation to a 64-bit word. -/
def w64 (x : Nat) : Nat := x % 18446744073709551616

/-- Right rotation of a 64-bit word by `n` bits. -/
def rotr64 (n x : Nat) : Nat := w64 ((x >>> n) ||| (x <<< (64 - n)))

/-- Bitwise complement of a 64-bit word. -/
def not64 (x : Nat) : Nat := x ^^^ 18446744073709551615

/-- Group a byte list into big-endian 64-bit words (eight bytes per word). -/
def bytesToWords64 : Bytes → List Nat
  | b0 :: b1 :: b2 :: b3 :: b4 :: b5 :: b6 :: b7 :: rest =>
      ((b0 <<< 56) ||| (b1 <<< 48) ||| (b2 <<< 40) ||| (b3 <<< 32) |||
       (b4 <<< 24) ||| (b5 <<< 16) ||| (b6 <<< 8) ||| b7) :: bytesToWords64 rest
  | _ => []

/-- SHA-512 round constants `K` (decimal renderings of the fractional
cube roots of the first 80 primes). -/
def sha512K : List Nat := [
  4794697086780616226, 8158064640168781261, 13096744586834688815, 16840607885511220156,
  4131703408338449720, 6480981068601479193, 10538285296894168987, 12329834152419229976,
  15566598209576043074, 1334009975649890238, 2608012711638119052, 6128411473006802146,
  8268148722764581231, 9286055187155687089, 11230858885718282805, 13951009754708518548,
  16472876342353939154, 17275323862435702243, 1135362057144423861, 2597628984639134821,
  3308224258029322869, 5365058923640841347, 6679025012923562964, 8573033837759648693,
  10970295158949994411, 12119686244451234320, 12683024718118986047, 13788192230050041572,
  14330467153632333762, 15395433587784984357, 489312712824947311, 1452737877330783856,
  2861767655752347644, 3322285676063803686, 5560940570517711597, 5996557281743188959,
  7280758554555802590, 8532644243296465576, 9350256976987008742, 10552545826968843579,
  11727347734174303076, 12113106623233404929, 14000437183269869457, 14369950271660146224,
  15101387698204529176, 15463397548674623760, 17586052441742319658, 1182934255886127544,
  1847814050463011016, 2177327727835720531, 2830643537854262169, 3796741975233480872,
  4115178125766777443, 5681478168544905931, 6601373596472566643, 7507060721942968483,
  8399075790359081724, 8693463985226723168, 9568029438360202098, 10144078919501101548,
  10430055236837252648, 11840083180663258601, 13761210420658862357, 14299343276471374635,
  14566680578165727644, 15097957966210449927, 16922976911328602910, 17689382322260857208,
  500013540394364858, 748580250866718886, 1242879168328830382, 1977374033974150939,
  2944078676154940804, 3659926193048069267, 4368137639120453308, 4836135668995329356,
  5532061633213252278, 6448918945643986474, 6902733635092675308, 7801388544844847127]

/-- SHA-512 initial hash value (fractional square roots of the first
eight primes, 64-bit, decimal). -/
def sha512H0 : H8 :=
  ⟨7640891576956012808, 13503953896175478587, 4354685564936845355, 11912009170470909681,
   5840696475078001361, 11170449401992604703, 2270897969802886507, 6620516959819538809⟩

/-- Choice function on 64-bit words. -/
def ch64 (x y z : Nat) : Nat := (x &&& y) ^^^ (not64 x &&& z)

/-- Majority function on 64-bit words. -/
def maj64 (x y z : Nat) : Nat := (x &&& y) ^^^ (x &&& z) ^^^ (y &&& z)

/-- Big sigma-0 for SHA-512. -/
def bsig0x (x : Nat) : Nat := rotr64 28 x ^^^ rotr64 34 x ^^^ rotr64 39 x

/-- Big sigma-1 for SHA-512. -/
def bsig1x (x : Nat) : Nat := rotr64 14 x ^^^ rotr64 18 x ^^^ rotr64 41 x

/-- Small sigma-0 for SHA-512. -/
def ssig0x (x : Nat) : Nat := rotr64 1 x ^^^ rotr64 8 x ^^^ (x >>> 7)

/-- Small sigma-1 for SHA-512. -/
def ssig1x (x : Nat) : Nat := rotr64 19 x ^^^ rotr64 61 x ^^^ (x >>> 6)

/-- One step of SHA-512 message-schedule extension. -/
def sha512ExtendOnce (ws : List Nat) : List Nat :=
  let n := ws.length
  ws ++ [w64 (ssig1x (ws.getD (n - 2) 0) + ws.getD (n - 7) 0 +
              ssig0x (ws.getD (n - 15) 0) + ws.getD (n - 16) 0)]

/-- Extend a 16-word block to the 80-word SHA-512 message schedule. -/
def sha512Schedule (ws : List Nat) : List Nat := sha512ExtendOnce^[64] ws

/-- One SHA-512 compression round; `kw` is the precombined `K[t] + W[t]`. -/
def sha512Round (st : H8) (kw : Nat) : H8 :=
  let t1 := w64 (st.h + bsig1x st.e + ch64 st.e st.f st.g + kw)
  let t2 := w64 (bsig0x st.a + maj64 st.a st.b st.c)
  ⟨w64 (t1 + t2), st.a, st.b, st.c, w64 (st.d + t1), st.e, st.f, st.g⟩

/-- Compress one 16-word block into the running SHA-512 state. -/
def sha512Compress (st : H8) (block : List Nat) : H8 :=
  let kws := List.zipWith (fun k w => w64 (k + w)) sha512K (sha512Schedule block)
  let r := kws.foldl sha512Round st
  ⟨w64 (st.a + r.a), w64 (st.b + r.b), w64 (st.c + r.c), w64 (st.d + r.d),
   w64 (st.e + r.e), w64 (st.f + r.f), w64 (st.g + r.g), w64 (st.h + r.h)⟩

/-- Fold the SHA-512 compression over successive 16-word blocks. -/
def sha512BlocksAux : Nat → H8 → List Nat → H8
  | 0, st, _ => st
  | _, st, [] => st
  | fuel + 1, st, ws => sha512BlocksAux fuel (sha512Compress st (ws.take 16)) (ws.drop 16)

/-- SHA-512 padding: append 0x80, zero-pad to 112 mod 128, then the
128-bit big-endian bit length (the high eight bytes are zero for any
message this model handles). -/
def sha512Pad (msg : Bytes) : Bytes :=
  let len := msg.length
  msg ++ 0x80 :: List.replicate ((240 - (len + 1) % 128) % 128) 0 ++
    (u64be 0 ++ u64be (8 * len))

/-- Serialize the eight-word SHA-512 state big-endian. -/
def h8ToBytes64BE (st : H8) : Bytes :=
  u64be st.a ++ u64be st.b ++ u64be st.c ++ u64be st.d ++
  u64be st.e ++ u64be st.f ++ u64be st.g ++ u64be st.h

/-- SHA-512 digest of a byte sequence, as its 64 digest bytes. -/
def sha512Sum (msg : Bytes) : Bytes :=
  let ws := bytesToWords64 (sha512Pad msg)
  h8ToBytes64BE (sha512BlocksAux (ws.length + 1) sha512H0 ws)

/-! ## Digest encodings

The source encodes every digest with Go's `base64.URLEncoding`
(`helpers.GetFileHash`).  The hex encoding exists only to state the spec's
words and compare them against the source. -/

/-- The base64 URL-safe alphabet of `base64.URLEncoding`. -/
def b64Alphabet : List Char :=
  "ABCDEFGHIJKLMNOPQRSTUVWXYZabcdefghijklmnopqrstuvwxyz0123456789-_".toList

/-- Character for a 6-bit group. -/
def b64c (n : Nat) : Char := b64Alphabet.getD n 'A'

/-- Encode three bytes per step, padding the final partial group with '='
as Go's `base64.URLEncoding` (StdPadding) does.  Fuel-based so that the
definition reduces in the kernel. -/
def base64UrlAux : Nat → Bytes → List Char
  | 0, _ => []
  | _, [] => []
  | _ + 1, [b0] =>
      [b64c (b0 >>> 2), b64c ((b0 &&& 3) <<< 4), '=', '=']
  | _ + 1, [b0, b1] =>
      [b64c (b0 >>> 2), b64c (((b0 &&& 3) <<< 4) ||| (b1 >>> 4)),
       b64c ((b1 &&& 15) <<< 2), '=']
  | fuel + 1, b0 :: b1 :: b2 :: rest =>
      b64c (b0 >>> 2) :: b64c (((b0 &&& 3) <<< 4) ||| (b1 >>> 4)) ::
      b64c (((b1 &&& 15) <<< 2) ||| (b2 >>> 6)) :: b64c (b2 &&& 63) ::
      base64UrlAux fuel rest

/-- Go's `base64.URLEncoding.EncodeToString`. -/
def base64UrlEncode (bs : Bytes) : String := String.mk (base64UrlAux (bs.length + 1) bs)

/-- Lowercase hex digit. -/
def hexDigit (n : Nat) : Char := "0123456789abcdef".toList.getD n '0'

/-- Modelled from the spec: the claim C1 phrase "hex-encoded SHA-256" —
lowercase hexadecimal rendering of digest bytes (Go's
`hex.EncodeToString`).  The source never hex-encodes a digest; this
definition exists solely to compare the spec's words with the source's
base64 encoding. -/
def specHexEncode (bs : Bytes) : String :=
  String.mk (bs.foldr (fun b acc => hexDigit (b >>> 4) :: hexDigit (b &&& 15) :: acc) [])

/-! ## Go error and outcome model

A fallible Go call either returns a value, returns a non-nil `error`
value, or panics at runtime.  The two sentinel errors the server compares
against (`os.ErrNotExist`, `os.ErrExist`) are distinguished; `errors.Is`
on a `*PathError` unwraps to the sentinel, so a failed `stat`/`remove`/
`open` on a missing file is `errNotExist`. -/

/-- The error values the embedded code can return. -/
inductive GoErr where
  | errNotExist
  | errExist
  | errMsg (msg : String)
deriving DecidableEq, Repr

/-- Outcome of a fallible Go call: a value, a returned error value, or a
runtime panic. -/
inductive GoOutcome (α : Type) where
  | ok (val : α)
  | err (e : GoErr)
  | panicked (msg : String)
deriving DecidableEq, Repr

/-- True exactly when the outcome is a returned (non-nil) error value —
not a success and not a panic. -/
def GoOutcome.isErr {α : Type} : GoOutcome α → Bool
  | .err _ => true
  | _ => false

/-! ## Filesystem and storage state -/

/-- Association-list filesystem: absolute path ↦ file contents.
Directories are not modeled: writing or renaming to a path needs no
separate parent-directory entry (the spec's Commit, §4.2, ensures the
shard directory exists before the move). -/
abbrev FileSys := List (String × Bytes)

/-- Contents of the file at `p`, if present. -/
def fsLookup (fs : FileSys) (p : String) : Option Bytes :=
  match fs.find? (fun e => e.1 == p) with
  | some e => some e.2
  | none => none

/-- Remove the file at `p` (no-op when absent). -/
def fsRemove (fs : FileSys) (p : String) : FileSys :=
  fs.filter (fun e => e.1 != p)

/-- Create or overwrite the file at `p`. -/
def fsWrite (fs : FileSys) (p : String) (c : Bytes) : FileSys :=
  (p, c) :: fsRemove fs p

/-- State shared by the storage and the server: the filesystem and the
keys of the `muxMap` lock registry of `Storage` (only the key set matters
for the claims; the mutex values are units of mutual exclusion with no
observable data). -/
structure Sys where
  files : FileSys
  muxKeys : List String
deriving DecidableEq, Repr

/-- A fresh storage over an empty filesystem, as built by `NewStorage`. -/
def initSys : Sys := ⟨[], []⟩

/-- Insert a key into the registry if it is not already present
(the lookup-or-insert under `muxMapLock`). -/
def insertKey (k : String) (ks : List String) : List String :=
  if k ∈ ks then ks else ks ++ [k]

/-- Embedding of `helpers.GetFilePath`: the path is
`filepath.Join(basePath, "store", hash[0:2], hash)`.  Go string slicing
`hash[0:2]` panics with a slice-bounds runtime error when the string is
shorter than two bytes (the digests in play are ASCII, so byte length and
character length agree).  No `InvalidKey` error value exists anywhere in
the source. -/
def getFilePath (basePath hashStr : String) : GoOutcome String :=
  if hashStr.length < 2 then .panicked "slice bounds out of range"
  else .ok (basePath ++ "/store/" ++ hashStr.take 2 ++ "/" ++ hashStr)

/-- Embedding of `Storage.Exists`: stat the sharded path; "not found"
becomes `(false, nil)`.  Stat faults other than absence are not modeled. -/
def storageExists (bp : String) (s : Sys) (hashStr : String) : GoOutcome Bool :=
  match getFilePath bp hashStr with
  | .panicked m => .panicked m
  | .err e => .err e
  | .ok p => .ok (fsLookup s.files p).isSome

/-- Embedding of `Storage.SaveFileFromTemp`: look up or insert the
digest's mutex in `muxMap` under the guard lock (the entry is never
deleted afterwards), then `os.Rename` the temporary file onto the sharded
path.  POSIX rename silently replaces an existing destination and fails
with ENOENT when the source is missing; no existence check precedes the
move and `os.ErrExist` is never produced. -/
def storageSaveFileFromTemp (bp : String) (s : Sys) (hashStr tmpPath : String) :
    GoOutcome Unit × Sys :=
  let s1 : Sys := ⟨s.files, insertKey hashStr s.muxKeys⟩
  match getFilePath bp hashStr with
  | .panicked m => (.panicked m, s1)
  | .err e => (.err e, s1)
  | .ok p =>
    match fsLookup s1.files tmpPath with
    | none => (.err .errNotExist, s1)
    | some data => (.ok (), ⟨fsWrite (fsRemove s1.files tmpPath) p data, s1.muxKeys⟩)

/-- Embedding of `Storage.Read`: an absent file yields `("", nil)` — no
error; a present file is copied to `os.TempDir()/hash` (`/tmp/hash`) and
the function returns `filePath`, the STORE path, not the temporary copy's
path. -/
def storageRead (bp : String) (s : Sys) (hashStr : String) : GoOutcome String × Sys :=
  match getFilePath bp hashStr with
  | .panicked m => (.panicked m, s)
  | .err e => (.err e, s)
  | .ok p =>
    match fsLookup s.files p with
    | none => (.ok "", s)
    | some data => (.ok p, ⟨fsWrite s.files ("/tmp/" ++ hashStr) data, s.muxKeys⟩)

/-- Embedding of `Storage.Delete`: look up or insert the registry mutex
(never removed afterwards), then `os.Remove` the sharded path; removing an
absent file returns the ENOENT `*PathError`, which `Delete` propagates. -/
def storageDelete (bp : String) (s : Sys) (hashStr : String) : GoOutcome Unit × Sys :=
  let s1 : Sys := ⟨s.files, insertKey hashStr s.muxKeys⟩
  match getFilePath bp hashStr with
  | .panicked m => (.panicked m, s1)
  | .err e => (.err e, s1)
  | .ok p =>
    match fsLookup s1.files p with
    | none => (.err .errNotExist, s1)
    | some _ => (.ok (), ⟨fsRemove s1.files p, s1.muxKeys⟩)

/-! ## Digest-engine embedding -/

/-- An open `*os.File`: its contents and the shared read/write offset. -/
structure Handle where
  content : Bytes
  pos : Nat
deriving DecidableEq, Repr

/-- Read every byte from the current offset to end-of-file, leaving the
offset at end-of-file (what `io.Copy(hash, file)` does to the handle). -/
def handleReadAll (h : Handle) : Bytes × Handle :=
  (h.content.drop h.pos, ⟨h.content, h.content.length⟩)

/-- Embedding of `helpers.GetFileHash`: stream the reader's remaining
bytes into the hash and return `base64.URLEncoding` of `hash.Sum(nil)`.
The in-memory reader cannot fail, so the branch returning `""` on a copy
error is unreachable here. -/
def GetFileHash (alg : Bytes → Bytes) (h : Handle) : String × Handle :=
  let r := handleReadAll h
  (base64UrlEncode (alg r.1), r.2)

/-- Embedding of `server.checkHashFromRequest`: open the staged file once
at offset zero and check the optional declared-hash headers in the order
MD5, SHA256, SHA512, SHA1, reusing the single file handle without
rewinding between checks.  An empty header string means the header is
absent.  The result is `true` for a nil error (every present header
matched) and `false` when some present header mismatched. -/
def checkHashFromRequest (content : Bytes) (md5H sha256H sha512H sha1H : String) : Bool :=
  let h0 : Handle := ⟨content, 0⟩
  let m :=
    if md5H == "" then (true, h0)
    else
      let r := GetFileHash md5Sum h0
      (md5H == r.1, r.2)
  if m.1 = false then false
  else
    let c256 :=
      if sha256H == "" then (true, m.2)
      else
        let r := GetFileHash sha256Sum m.2
        (sha256H == r.1, r.2)
    if c256.1 = false then false
    else
      let c512 :=
        if sha512H == "" then (true, c256.2)
        else
          let r := GetFileHash sha512Sum c256.2
          (sha512H == r.1, r.2)
      if c512.1 = false then false
      else
        let c1 :=
          if sha1H == "" then (true, c512.2)
          else
            let r := GetFileHash sha1Sum c512.2
            (sha1H == r.1, r.2)
        c1.1

/-! ## Server handlers -/

/-- HTTP response of a handler: `created h` is 201 with `{"hash": h}`,
`okEmpty` is a bare 200, `okFile d` is 200 carrying the file bytes, and
`aborted c` is `AbortWithError(c, ...)`. -/
inductive Resp where
  | created (hashStr : String)
  | okEmpty
  | okFile (data : Bytes)
  | aborted (code : Nat)
deriving DecidableEq, Repr

/-- HTTP status code of a response. -/
def Resp.status : Resp → Nat
  | .created _ => 201
  | .okEmpty => 200
  | .okFile _ => 200
  | .aborted code => code

/-- The digest reported in a created response's JSON body, if any. -/
def Resp.hashBody : Resp → Option String
  | .created h => some h
  | _ => none

/-- The file bytes carried by a 200 response, if any. -/
def Resp.fileBody : Resp → Option Bytes
  | .okFile d => some d
  | _ => none

/-- Inputs of one `SaveFile` request: the request body, the four optional
declared-hash headers (empty string = absent), and failure-injection flags
for the four fallible I/O steps (`c.FormFile`, `os.CreateTemp`,
`formFile.Open`, `io.Copy`). -/
structure SaveEnv where
  body : Bytes
  md5H : String
  sha256H : String
  sha512H : String
  sha1H : String
  formFileOk : Bool
  createTempOk : Bool
  openOk : Bool
  copyOk : Bool
deriving DecidableEq, Repr

/-- A `SaveFile` request carrying only a body: no declared-hash headers,
all I/O steps succeeding. -/
def plainEnv (body : Bytes) : SaveEnv := ⟨body, "", "", "", "", true, true, true, true⟩

/-- The staging file's name.  `os.CreateTemp` picks a fresh name in
`/tmp`; a fixed representative is enough because each embedded request
runs to completion before the next and no store path starts with
`/tmp/staging`. -/
def stagingName : String := "/tmp/staging"

/-- The part of `HTTPFileStorageServer.SaveFile` after the request body
has been copied into the staging file: hash the already-exhausted staging
handle (its offset sits at end-of-file after `io.Copy`), verify declared
hashes, commit via `SaveFileFromTemp`, and build the response.  Pre/post
save callbacks are not modeled — no claim concerns them, their failures
are ignored by the source, and they do not touch the store.  The deferred
staging cleanup is applied by the caller on every exit path of this
phase. -/
def postCopyPhase (bp : String) (s : Sys) (env : SaveEnv) : Resp × Sys :=
  let hashStr := (GetFileHash sha256Sum ⟨env.body, env.body.length⟩).1
  if hashStr == "" then (.aborted 500, s)
  else if checkHashFromRequest env.body env.md5H env.sha256H env.sha512H env.sha1H = false then
    (.aborted 412, s)
  else
    let r := storageSaveFileFromTemp bp s hashStr stagingName
    match r.1 with
    | .err .errExist => (.okEmpty, r.2)
    | .err _ => (.aborted 500, r.2)
    | .panicked _ => (.aborted 500, r.2)
    | .ok _ => (.created hashStr, r.2)

/-- Embedding of `HTTPFileStorageServer.SaveFile`, the ingestion pipeline.
`os.CreateTemp` creates the staging file empty; `io.Copy` fills it with
the body and leaves the shared handle's offset at end-of-file (a failed
copy leaves unspecified partial contents, modeled as the empty prefix).
The cleanup `defer` (`file.Close`, `os.Remove` of the staging file) is
registered only after the copy returns, so aborts while getting the form
file, creating the temporary file, opening the form file, or copying the
body never remove the staging file; every later exit — including the
panic-recovery path — does run it, and after a successful rename the
removal is a no-op. -/
def saveFileHandler (bp : String) (s : Sys) (env : SaveEnv) : Resp × Sys :=
  if env.formFileOk = false then (.aborted 500, s)
  else if env.createTempOk = false then (.aborted 500, s)
  else
    let sCreated : Sys := ⟨fsWrite s.files stagingName [], s.muxKeys⟩
    if env.openOk = false then (.aborted 500, sCreated)
    else if env.copyOk = false then (.aborted 500, sCreated)
    else
      let sCopied : Sys := ⟨fsWrite sCreated.files stagingName env.body, sCreated.muxKeys⟩
      let out := postCopyPhase bp sCopied env
      (out.1, ⟨fsRemove out.2.files stagingName, out.2.muxKeys⟩)

/-- Embedding of `HTTPFileStorageServer.SendFile`: read via
`Storage.Read`, 404 only when the returned error is `os.ErrNotExist`
(which `Read` never produces — absence yields `("", nil)`), open the
returned path, recompute the SHA-256 of its contents from offset zero,
compare with the requested digest, and on match serve the bytes; in both
the corrupted and the success branch the file at the returned path is
removed afterwards. -/
def sendFileHandler (bp : String) (s : Sys) (hashStr : String) : Resp × Sys :=
  let r := storageRead bp s hashStr
  match r.1 with
  | .panicked _ => (.aborted 500, r.2)
  | .err e => if e = .errNotExist then (.aborted 404, r.2) else (.aborted 500, r.2)
  | .ok filePath =>
    match fsLookup r.2.files filePath with
    | none => (.aborted 500, r.2)
    | some data =>
      let computed := (GetFileHash sha256Sum ⟨data, 0⟩).1
      if computed == "" then (.aborted 500, r.2)
      else if hashStr ≠ computed then
        (.aborted 500, ⟨fsRemove r.2.files filePath, r.2.muxKeys⟩)
      else
        (.okFile data, ⟨fsRemove r.2.files filePath, r.2.muxKeys⟩)

/-- Embedding of `HTTPFileStorageServer.DeleteFile`: delegate to
`Storage.Delete`; any returned error (including ENOENT for an absent
file) or recovered panic becomes a 500, success a bare 200. -/
def deleteFileHandler (bp : String) (s : Sys) (hashStr : String) : Resp × Sys :=
  let r := storageDelete bp s hashStr
  match r.1 with
  | .panicked _ => (.aborted 500, r.2)
  | .err _ => (.aborted 500, r.2)
  | .ok _ => (.okEmpty, r.2)

/-! ## Operation sequences over the store (for the lock-registry claim) -/

/-- One storage operation, as invoked by the handlers. -/
inductive StoreOp where
  | save (hashStr tmpPath : String)
  | del (hashStr : String)
  | readOp (hashStr : String)
  | existsOp (hashStr : String)
deriving DecidableEq, Repr

/-- State after one storage operation has finished (no operation is left
mid-flight). -/
def applyOp (bp : String) (s : Sys) : StoreOp → Sys
  | .save h t => (storageSaveFileFromTemp bp s h t).2
  | .del h => (storageDelete bp s h).2
  | .readOp h => (storageRead bp s h).2
  | .existsOp _ => s

/-- State after a sequence of storage operations, in order. -/
def applyOps (bp : String) (s : Sys) (ops : List StoreOp) : Sys :=
  ops.foldl (applyOp bp) s

/-- The digest whose registry entry an operation creates, if any:
`SaveFileFromTemp` and `Delete` insert into `muxMap`; `Read` and `Exists`
never touch it. -/
def opKey : StoreOp → Option String
  | .save h _ => some h
  | .del h => some h
  | .readOp _ => none
  | .existsOp _ => none

/-- The base64-URL-encoded SHA-256 of the empty byte sequence — the digest
the ingestion pipeline reports for every upload, because the staging
handle is hashed at end-of-file. -/
def emptyDigest : String := "47DEQpj8HBSa-_TImW-5JCeuQeRkm5NMpJWZG3hSuFU="

/-- The sharded store path of `emptyDigest` under base path `/tmp`. -/
def emptyDigestPath : String := "/tmp/store/47/47DEQpj8HBSa-_TImW-5JCeuQeRkm5NMpJWZG3hSuFU="

/-- The transient copy `Storage.Read` writes to `os.TempDir()/hash` for
the digest `emptyDigest`. -/
def tmpCopyPath : String := "/tmp/47DEQpj8HBSa-_TImW-5JCeuQeRkm5NMpJWZG3hSuFU="

/-! ## Supporting lemmas -/

theorem mem_insertKey {x k : String} {ks : List String} :
    x ∈ insertKey k ks ↔ x = k ∨ x ∈ ks := by
  unfold insertKey
  by_cases h : k ∈ ks
  · rw [if_pos h]
    constructor
    · exact Or.inr
    · rintro (rfl | hx)
      · exact h
      · exact hx
  · rw [if_neg h]
    simp [List.mem_append, or_comm]

theorem fsLookup_nil (p : String) : fsLookup [] p = none := rfl

theorem fsLookup_fsRemove (fs : FileSys) (p : String) :
    fsLookup (fsRemove fs p) p = none := by
  induction fs with
  | nil => rfl
  | cons e rest ih =>
    unfold fsRemove at ih ⊢
    rw [List.filter_cons]
    by_cases h : e.1 = p
    · simp only [h, bne_self_eq_false, if_false]
      exact ih
    · have hb : (e.1 != p) = true := by simp [h]
      rw [if_pos hb]
      unfold fsLookup
      rw [List.find?_cons_of_neg]
      · exact ih
      · simp [h]

theorem fsLookup_write_self (fs : FileSys) (p : String) (c : Bytes) :
    fsLookup (fsWrite fs p c) p = some c := by
  unfold fsWrite fsLookup
  rw [List.find?_cons_of_pos]
  exact beq_self_eq_true p

theorem muxKeys_save (bp : String) (s : Sys) (h t : String) :
    ((storageSaveFileFromTemp bp s h t).2).muxKeys = insertKey h s.muxKeys := by
  simp only [storageSaveFileFromTemp]
  split
  · rfl
  · rfl
  · split
    · rfl
    · rfl

theorem muxKeys_delete (bp : String) (s : Sys) (h : String) :
    ((storageDelete bp s h).2).muxKeys = insertKey h s.muxKeys := by
  simp only [storageDelete]
  split
  · rfl
  · rfl
  · split
    · rfl
    · rfl

theorem muxKeys_read (bp : String) (s : Sys) (h : String) :
    ((storageRead bp s h).2).muxKeys = s.muxKeys := by
  simp only [storageRead]
  split
  · rfl
  · rfl
  · split
    · rfl
    · rfl

theorem base64UrlEncode_ne_empty {bs : Bytes} (h : bs ≠ []) :
    base64UrlEncode bs ≠ "" := by
  match bs, h with
  | b0 :: rest, _ =>
    intro hEq
    have hdata := congrArg String.data hEq
    simp only [base64UrlEncode] at hdata
    cases rest with
    | nil => simp [base64UrlAux] at hdata
    | cons b1 r1 =>
      cases r1 with
      | nil => simp [base64UrlAux] at hdata
      | cons b2 r2 => simp [base64UrlAux] at hdata

theorem md5Sum_ne_nil (msg : Bytes) : md5Sum msg ≠ [] := by
  simp [md5Sum, u32le]

theorem sha256Sum_ne_nil (msg : Bytes) : sha256Sum msg ≠ [] := by
  simp [sha256Sum, h8ToBytesBE, u32be]

/-! ## Claim theorems -/

/-- C1, counterexample.  The claim says the digest reported by the
ingestion pipeline equals the hex-encoded SHA-256 of the uploaded bytes.
Uploading the single byte 0x74 ("t"), the pipeline reports the
base64-URL-encoded SHA-256 of the empty byte sequence — which is neither
the hex-encoded SHA-256 of the upload nor the hex encoding of any
digest. -/
theorem C1_counterexample :
    (saveFileHandler "/tmp" initSys (plainEnv [116])).1.hashBody = some emptyDigest ∧
    (saveFileHandler "/tmp" initSys (plainEnv [116])).1.hashBody ≠
      some (specHexEncode (sha256Sum [116])) ∧
    (saveFileHandler "/tmp" initSys (plainEnv [116])).1.hashBody ≠
      some (specHexEncode (sha256Sum [])) := by
  decide

set_option maxRecDepth 8192 in
/-- C1, amended.  For every uploaded byte sequence B the ingestion
pipeline reports the base64-URL-encoded SHA-256 of the bytes remaining at
the staging handle's offset — the empty sequence, because the handle sits
at end-of-file after `io.Copy` and is never rewound — so the reported
digest is the constant `47DEQpj8HBSa-_TImW-5JCeuQeRkm5NMpJWZG3hSuFU=`,
independent of B, and not the hex-encoded SHA-256 of B. -/
theorem C1_theorem (B : Bytes) :
    (saveFileHandler "/tmp" initSys (plainEnv B)).1 = .created emptyDigest := by
  have key : GetFileHash sha256Sum ⟨B, B.length⟩ = (emptyDigest, ⟨B, B.length⟩) := by
    unfold GetFileHash handleReadAll
    simp only [List.drop_length]
    rw [show base64UrlEncode (sha256Sum []) = emptyDigest from by decide]
  simp [saveFileHandler, postCopyPhase, plainEnv, key, checkHashFromRequest,
        storageSaveFileFromTemp, getFilePath, fsLookup_write_self, initSys,
        show (emptyDigest == "") = false from by decide,
        show ¬(emptyDigest.length < 2) from by decide]

/-- C2: ingesting B and then retrieving by the digest the ingest reported
returns B.  The code violates this for the upload 0x74 ("t"): the ingest
reports the empty-input digest, so the retrieval recomputes the SHA-256
of the stored bytes, finds a mismatch with the requested digest, signals
Corrupted (500), returns no bytes, and purges the artifact. -/
theorem C2_theorem :
    saveFileHandler "/tmp" initSys (plainEnv [116]) =
      (.created emptyDigest, ⟨[(emptyDigestPath, [116])], [emptyDigest]⟩) ∧
    sendFileHandler "/tmp" ⟨[(emptyDigestPath, [116])], [emptyDigest]⟩ emptyDigest =
      (.aborted 500, ⟨[(tmpCopyPath, [116])], [emptyDigest]⟩) := by
  constructor
  · decide
  · decide

/-- C3: a successful retrieval is claimed to delete only the transient
staging copy and leave the committed artifact, so the blob can be read
again.  The code does the opposite: `Storage.Read` returns the store path
(not the temporary copy's path), so after serving the blob the handler
removes the committed artifact at `root/store/d[0:2]/d` and leaves the
transient copy orphaned; a second retrieval of the same digest fails with
500. -/
theorem C3_theorem :
    sendFileHandler "/tmp" ⟨[(emptyDigestPath, [])], []⟩ emptyDigest =
      (.okFile [], ⟨[(tmpCopyPath, [])], []⟩) ∧
    (sendFileHandler "/tmp" ⟨[(tmpCopyPath, [])], []⟩ emptyDigest).1 = .aborted 500 := by
  constructor
  · decide
  · decide

/-- C4: the second ingest of the same bytes is claimed to detect the
pre-existing artifact via an explicit existence check before the move and
report AlreadyExists (200, no new artifact).  The code performs no
existence check: `os.Rename` silently replaces the destination and
returns nil, `os.ErrExist` is never produced, so the second ingest
returns 201 Created again (same digest, store unchanged with exactly one
artifact), and `SaveFileFromTemp` returns nil even when the destination
already exists. -/
theorem C4_theorem :
    saveFileHandler "/tmp" initSys (plainEnv [116]) =
      (.created emptyDigest, ⟨[(emptyDigestPath, [116])], [emptyDigest]⟩) ∧
    saveFileHandler "/tmp" ⟨[(emptyDigestPath, [116])], [emptyDigest]⟩ (plainEnv [116]) =
      (.created emptyDigest, ⟨[(emptyDigestPath, [116])], [emptyDigest]⟩) ∧
    (storageSaveFileFromTemp "/tmp"
        ⟨[(emptyDigestPath, [116]), (stagingName, [116])], [emptyDigest]⟩
        emptyDigest stagingName).1 = .ok () := by
  refine ⟨by decide, by decide, by decide⟩

/-- C5: deleting a digest with no stored file is claimed to succeed with
no error (idempotent delete).  The code propagates the ENOENT error of
`os.Remove` on the absent file, and the handler turns it into a 500. -/
theorem C5_theorem :
    (storageDelete "/tmp" initSys "ab").1 = .err .errNotExist ∧
    (storageDelete "/tmp" initSys "ab").1.isErr = true ∧
    deleteFileHandler "/tmp" initSys "ab" = (.aborted 500, ⟨[], ["ab"]⟩) := by
  decide

/-- C6: retrieval of an absent digest is claimed to fail with 404
NotFound.  `Storage.Read` maps absence to `("", nil)`, so the handler's
404 branch (which matches `os.ErrNotExist`) never fires; instead
`os.Open("")` fails and the handler returns 500. -/
theorem C6_theorem :
    (storageRead "/tmp" initSys "test").1 = .ok "" ∧
    sendFileHandler "/tmp" initSys "test" = (.aborted 500, initSys) ∧
    (sendFileHandler "/tmp" initSys "test").1.status ≠ 404 := by
  decide

/-- C7, counterexample.  The claim says that after a store operation on a
digest finishes its lock entry has been removed from the registry.  After
a completed Delete of digest "ab" (no operation mid-flight), the registry
still holds the entry for "ab". -/
theorem C7_counterexample :
    ((storageDelete "/tmp" initSys "ab").2).muxKeys = ["ab"] ∧
    ((deleteFileHandler "/tmp" initSys "ab").2).muxKeys ≠ [] := by
  decide

/-- C7, amended.  Lock-registry entries are never removed: after any
sequence of store operations, a digest has an entry in the registry
exactly when it was already there initially or some commit or delete in
the sequence touched it — the registry grows monotonically with the set
of digests ever operated on. -/
theorem C7_theorem (bp : String) (s : Sys) (ops : List StoreOp) (x : String) :
    x ∈ (applyOps bp s ops).muxKeys ↔ x ∈ s.muxKeys ∨ some x ∈ ops.map opKey := by
  induction ops generalizing s with
  | nil => simp [applyOps]
  | cons op rest ih =>
    have hstep : applyOps bp s (op :: rest) = applyOps bp (applyOp bp s op) rest := rfl
    rw [hstep, ih]
    cases op with
    | save h t =>
        simp only [applyOp, muxKeys_save, mem_insertKey, opKey, List.map_cons,
          List.mem_cons, Option.some.injEq]
        tauto
    | del h =>
        simp only [applyOp, muxKeys_delete, mem_insertKey, opKey, List.map_cons,
          List.mem_cons, Option.some.injEq]
        tauto
    | readOp h => simp [applyOp, muxKeys_read, opKey]
    | existsOp h => simp [applyOp, opKey]

/-- C8, counterexample.  The claim says the staging file is removed before
the pipeline returns on every exit path, including failures while opening
or copying the request body.  When opening the form file fails, the
pipeline aborts with 500 and the staging file is left behind (the cleanup
defer has not been registered yet). -/
theorem C8_counterexample :
    (saveFileHandler "/tmp" initSys ⟨[116], "", "", "", "", true, true, false, true⟩).1 =
      .aborted 500 ∧
    fsLookup (saveFileHandler "/tmp" initSys
        ⟨[116], "", "", "", "", true, true, false, true⟩).2.files stagingName = some [] := by
  decide

/-- C8, amended.  One staging file is created whenever `os.CreateTemp` is
reached and succeeds; it is removed before return on every exit path
after the body copy has succeeded (declared-digest mismatch, commit
error, success), but on failures opening or copying the request body the
staging file is leaked, and when getting the form file or creating the
temporary file fails no staging file exists at all: after a run, a
staging file remains exactly when the temp file was created and opening
or copying the body failed. -/
theorem C8_theorem (env : SaveEnv) :
    fsLookup (saveFileHandler "/tmp" initSys env).2.files stagingName ≠ none ↔
      env.formFileOk = true ∧ env.createTempOk = true ∧
        ¬(env.openOk = true ∧ env.copyOk = true) := by
  obtain ⟨B, m5, s256, s512, s1, ff, ct, op, cp⟩ := env
  cases ff <;> cases ct <;> cases op <;> cases cp <;>
    simp [saveFileHandler, fsLookup_fsRemove, fsLookup_nil, fsLookup_write_self, initSys]

/-- C9, counterexample.  The claim says a one-character identifier makes
the operations fail with an InvalidKey error value.  `Exists` on the
identifier "a" panics with a slice-bounds runtime error; it does not
return an error value (there is no InvalidKey error in the source). -/
theorem C9_counterexample :
    storageExists "/tmp" initSys "a" = .panicked "slice bounds out of range" ∧
    (storageExists "/tmp" initSys "a").isErr = false := by
  decide

/-- C9, amended.  For every identifier shorter than two characters, the
path computation `hash[0:2]` panics with a slice-bounds runtime error;
exists, commit, open/retrieve and delete invoked with such an identifier
all propagate that panic instead of returning an error value, and at the
HTTP layer the recover boundary converts it into a 500 response. -/
theorem C9_theorem (hashStr : String) (s : Sys) (hlen : hashStr.length < 2) :
    storageExists "/tmp" s hashStr = .panicked "slice bounds out of range" ∧
    (storageRead "/tmp" s hashStr).1 = .panicked "slice bounds out of range" ∧
    (storageSaveFileFromTemp "/tmp" s hashStr stagingName).1 =
      .panicked "slice bounds out of range" ∧
    (storageDelete "/tmp" s hashStr).1 = .panicked "slice bounds out of range" ∧
    (sendFileHandler "/tmp" s hashStr).1 = .aborted 500 ∧
    (deleteFileHandler "/tmp" s hashStr).1 = .aborted 500 := by
  have hg : getFilePath "/tmp" hashStr = .panicked "slice bounds out of range" := by
    unfold getFilePath
    rw [if_pos hlen]
  refine ⟨?_, ?_, ?_, ?_, ?_, ?_⟩ <;>
    simp [storageExists, storageRead, storageSaveFileFromTemp, storageDelete,
          sendFileHandler, deleteFileHandler, hg]

/-- C9, witness: the amended theorem applied to the concrete one-character
identifier "a". -/
theorem C9_witness :
    String.length "a" < 2 ∧
    (storageDelete "/tmp" initSys "a").1 = .panicked "slice bounds out of range" :=
  ⟨by decide, ( C9_theorem "a" initSys (by decide)).2.2.2.1⟩

/-- C10: in `checkHashFromRequest` one shared file handle serves all
declared-hash checks and is never rewound, so each header after the first
is verified against the hash of the empty remaining stream.  With a
correct MD5 header present first, a SHA256 header equal to the correct
hash of the content is rejected (whenever the content's hash differs from
the empty input's hash), while a SHA256 header equal to the hash of the
empty input is accepted. -/
theorem C10_theorem (content : Bytes)
    (hne : base64UrlEncode (sha256Sum content) ≠ base64UrlEncode (sha256Sum [])) :
    checkHashFromRequest content (base64UrlEncode (md5Sum content))
        (base64UrlEncode (sha256Sum content)) "" "" = false ∧
    checkHashFromRequest content (base64UrlEncode (md5Sum content))
        (base64UrlEncode (sha256Sum [])) "" "" = true := by
  have hmd5 : (base64UrlEncode (md5Sum content) == "") = false :=
    beq_eq_false_iff_ne.mpr (base64UrlEncode_ne_empty (md5Sum_ne_nil content))
  have hs256 : (base64UrlEncode (sha256Sum content) == "") = false :=
    beq_eq_false_iff_ne.mpr (base64UrlEncode_ne_empty (sha256Sum_ne_nil content))
  have hs256e : (base64UrlEncode (sha256Sum []) == "") = false :=
    beq_eq_false_iff_ne.mpr (base64UrlEncode_ne_empty (sha256Sum_ne_nil []))
  have hmis : (base64UrlEncode (sha256Sum content) ==
      base64UrlEncode (sha256Sum [])) = false := beq_eq_false_iff_ne.mpr hne
  constructor <;>
    simp [checkHashFromRequest, GetFileHash, handleReadAll, List.drop_length,
          hmd5, hs256, hs256e, hmis]

/-- C10, witness: the theorem applied to the one-byte content 0x74 ("t"),
whose SHA-256 differs from the empty input's SHA-256. -/
theorem C10_witness :
    base64UrlEncode (sha256Sum [116]) ≠ base64UrlEncode (sha256Sum []) ∧
    checkHashFromRequest [116] (base64UrlEncode (md5Sum [116]))
        (base64UrlEncode (sha256Sum [116])) "" "" = false ∧
    checkHashFromRequest [116] (base64UrlEncode (md5Sum [116]))
        (base64UrlEncode (sha256Sum [])) "" "" = true := by
  refine ⟨by decide, ?_, ?_⟩
  · exact (C10_theorem [116] (by decide)).1
  · exact (C10_theorem [116] (by decide)).2

end HBFS
